import Mathlib

/-!
Shallow embedding of the TIA pytest coverage plugin
(`examples/python-backend/pytest_tia_plugin.py`) and proofs about it.

Strings are modelled as `List Char`; line numbers as `Nat` (the tracer
reports 1-based line numbers).  Python's `re.sub` calls are modelled by
functions computing exactly the substitution each concrete pattern
performs (anchored patterns, greedy `.*` not crossing a newline, `$`
matching at the end of the string or just before a final newline).
-/

namespace TIA

/-- ASCII alphanumeric test, the character class `[a-zA-Z0-9]` of the
Python regexes. -/
def isAlnumAscii (c : Char) : Bool :=
  ('a' ≤ c && c ≤ 'z') || ('A' ≤ c && c ≤ 'Z') || ('0' ≤ c && c ≤ '9')

/-- `re.sub(r'[^a-zA-Z0-9]', '_', s)`: replace every character outside
`[a-zA-Z0-9]` with an underscore. -/
def replaceSpecial (s : List Char) : List Char :=
  s.map (fun c => if isAlnumAscii c then c else '_')

/-- `re.sub(r'^test_', '', s)`: the anchor `^` matches only at position 0,
so at most the single leading occurrence of `test_` is removed. -/
def stripLeadingTestToken (s : List Char) : List Char :=
  if s.take 5 = ['t', 'e', 's', 't', '_'] then s.drop 5 else s

/-- `re.sub(r'^Test', '', s)`: remove one leading `Test` token. -/
def stripLeadingTestClass (s : List Char) : List Char :=
  if s.take 4 = ['T', 'e', 's', 't'] then s.drop 4 else s

/-- `re.sub(r'Test$', '', s)`: `$` matches at the end of the string, or
just before a final newline; so a trailing `Test` (possibly followed by
one final newline) is removed. -/
def stripTrailingTestClass (s : List Char) : List Char :=
  match s.reverse with
  | 't' :: 's' :: 'e' :: 'T' :: r => r.reverse
  | '\n' :: 't' :: 's' :: 'e' :: 'T' :: r => r.reverse ++ ['\n']
  | _ => s

/-- Leftmost viable `[` for the pattern `\[.*\]$` applied to `u ++ "]"`:
the first index `p` of `u` with `u[p] = '['` such that no newline occurs
after position `p` in `u` (the greedy `.*` may not cross a newline). -/
def findOpenBracket : List Char → Option Nat
  | [] => none
  | c :: rest =>
    if c = '[' && rest.all (fun d => d ≠ '\n') then some 0
    else match findOpenBracket rest with
         | some k => some (k + 1)
         | none => none

/-- `re.sub(r'\[.*\]$', '', s)`: the `$` anchor admits exactly one
closing-bracket position — the last character when it is `]`, or the
second-to-last when the string ends in `]` + newline; the leftmost `[`
with no intervening newline opens the (single) match that is removed. -/
def stripBracketSuffix (s : List Char) : List Char :=
  match s.reverse with
  | ']' :: restRev =>
      let u := restRev.reverse
      match findOpenBracket u with
      | some p => u.take p
      | none => s
  | '\n' :: ']' :: restRev =>
      let u := restRev.reverse
      match findOpenBracket u with
      | some p => u.take p ++ ['\n']
      | none => s
  | _ => s

/-- `sanitize_test_name` (plugin lines 154-160): strip a leading `test_`,
strip a trailing `[...]` parametrization suffix, then replace every
character outside `[a-zA-Z0-9]` with `_`. -/
def sanitize_test_name (test_name : List Char) : List Char :=
  replaceSpecial (stripBracketSuffix (stripLeadingTestToken test_name))

/-- `sanitize_class_name` (plugin lines 162-168): strip a leading `Test`,
strip a trailing `Test`, then replace every character outside
`[a-zA-Z0-9]` with `_`. -/
def sanitize_class_name (class_name : List Char) : List Char :=
  replaceSpecial (stripTrailingTestClass (stripLeadingTestClass class_name))

/-- Artifact filename built in `save_test_coverage` (plugin line 69):
`f"{class_name}__{test_name}.json"` after both sanitizers ran. -/
def artifactFilename (rawClass rawTest : List Char) : List Char :=
  sanitize_class_name rawClass ++ ['_', '_'] ++ sanitize_test_name rawTest
    ++ ['.', 'j', 's', 'o', 'n']

/-! ### Format Converter -/

/-- ASCII whitespace stripped by `str.rstrip()` (space, tab, newline,
carriage return, vertical tab, form feed). -/
def isPySpace (c : Char) : Bool :=
  c = ' ' || c = '\t' || c = '\n' || c = '\r' || c = '\x0b' || c = '\x0c'

/-- Python `line.rstrip()`: drop trailing whitespace. -/
def rstrip (l : List Char) : List Char :=
  (l.reverse.dropWhile isPySpace).reverse

/-- A `{"line": _, "column": _}` position object. -/
structure Pos where
  line : Nat
  column : Nat
  deriving DecidableEq, Repr

/-- A statement-map entry `{"start": _, "end": _}` (`endPos` is the JSON
key `"end"`). -/
structure LineRange where
  start : Pos
  endPos : Pos
  deriving DecidableEq, Repr

/-- The per-file report built by `create_file_coverage` (plugin lines
143-152).  The dicts keyed by `str(i)` are modelled as association lists
keyed by the id `i` itself, in insertion order. -/
structure FileCoverage where
  path : List Char
  statementMap : List (Nat × LineRange)
  s : List (Nat × Nat)
  fnMap : List (Nat × LineRange) := []
  branchMap : List (Nat × LineRange) := []
  f : List (Nat × Nat) := []
  b : List (Nat × Nat) := []
  coverageSchema : List Char :=
    ['p','y','t','h','o','n','-','c','o','v','e','r','a','g','e','-','t','i','a','-','1','.','0','.','0']
  deriving DecidableEq, Repr

/-- Insert `x` into a strictly sorted list, keeping it strictly sorted
and duplicate-free. -/
def insertSorted (x : Nat) : List Nat → List Nat
  | [] => [x]
  | y :: ys =>
    if x < y then x :: y :: ys
    else if x = y then y :: ys
    else y :: insertSorted x ys

/-- `sorted(set(a) | set(b))` of Python: the strictly ascending list of
the distinct elements of `a ++ b`. -/
def sortedUnion (a b : List Nat) : List Nat :=
  (a ++ b).foldr insertSorted []

/-- The statement-map entry built for line `line_num` (plugin lines
135-138): `start = {line, 0}`; `end.column` is the rstripped length of
source line `line_num` when the file (as read at conversion time) still
has that many lines, else `0`.  Tracer line numbers are 1-based, so
`line_num - 1` is the 0-based index into `file_lines`. -/
def stmtEntry (file_lines : List (List Char)) (line_num : Nat) : LineRange :=
  { start := { line := line_num, column := 0 }
    endPos := { line := line_num
                column := if line_num ≤ file_lines.length
                  then (rstrip (((file_lines.get? (line_num - 1)).getD []))).length
                  else 0 } }

/-- `create_file_coverage(filepath, executed_lines, missing_lines)`
(plugin lines 118-152).  `readResult` is the outcome of the
`open(filepath)` / `readlines()` attempt: `none` means the read raised,
in which case the `except` branch sets `file_lines = []`. -/
def create_file_coverage (filepath : List Char) (executed_lines missing_lines : List Nat)
    (readResult : Option (List (List Char))) : FileCoverage :=
  let file_lines := readResult.getD []
  let all_lines := sortedUnion executed_lines missing_lines
  { path := filepath
    statementMap := all_lines.enum.map (fun p => (p.1, stmtEntry file_lines p.2))
    s := all_lines.enum.map (fun p => (p.1, if p.2 ∈ executed_lines then 1 else 0)) }

/-- The missing-line computation of `convert_coverage_to_tia_format`
(plugin lines 103-110): read the source to count its lines, take every
line of `1..lineCount` not in the executed set; if the read raises,
`missing_lines = []`. -/
def missingLinesFor (readResult : Option (List (List Char))) (lines : List Nat) : List Nat :=
  match readResult with
  | some file_lines =>
      (List.range' 1 file_lines.length).filter (fun line => decide (line ∉ lines))
  | none => []

/-- The per-file body of `convert_coverage_to_tia_format` (plugin lines
100-114): compute the missing lines from the first read of the source,
then build the file report (which reads the source again: `read2`). -/
def convertFile (rel_path : List Char) (lines : List Nat)
    (read1 read2 : Option (List (List Char))) : FileCoverage :=
  create_file_coverage rel_path lines (missingLinesFor read1 lines) read2

/-! ### Lifecycle Hook Adapter (teardown path)

The teardown control flow is modelled over an environment saying which
fallible external calls raise.  The sanitizers are pure and cannot
raise.  `save_test_coverage` wraps its whole body — sanitizing,
`convert_coverage_to_tia_format`, and the `open`/`json.dump` write — in
`try/except Exception`, so it never lets an exception out; but
`pytest_runtest_teardown` calls `self.cov.stop()` (and the final
sanitize + log) outside any `try`. -/

/-- Truthiness of the plugin attributes tested at teardown (plugin line
45): `self.cov` and `self.current_test` are either `None` or truthy
objects. -/
structure PluginState where
  covActive : Bool
  currentTestSet : Bool
  deriving DecidableEq, Repr

/-- Which external calls raise during this teardown. -/
structure TeardownEnv where
  stopRaises : Bool
  convertRaises : Bool
  writeRaises : Bool
  deriving DecidableEq, Repr

/-- Observable effects of one teardown-hook invocation. -/
structure TeardownEffects where
  calledStop : Bool
  calledConvert : Bool
  wroteArtifact : Bool
  loggedErrorWithTestName : Bool
  raisedOut : Bool
  deriving DecidableEq, Repr

/-- The no-op outcome: nothing called, nothing written, nothing raised. -/
def noEffects : TeardownEffects :=
  { calledStop := false, calledConvert := false, wroteArtifact := false
    loggedErrorWithTestName := false, raisedOut := false }

/-- Effects of `save_test_coverage` (plugin lines 59-78): the whole body
runs under `try`; an exception from the converter or from the write is
caught and logged with `item.name`; otherwise the artifact is written. -/
structure SaveEffects where
  calledConvert : Bool
  wroteArtifact : Bool
  loggedErrorWithTestName : Bool
  deriving DecidableEq, Repr

def save_test_coverage (env : TeardownEnv) : SaveEffects :=
  if env.convertRaises then
    { calledConvert := true, wroteArtifact := false, loggedErrorWithTestName := true }
  else if env.writeRaises then
    { calledConvert := true, wroteArtifact := false, loggedErrorWithTestName := true }
  else
    { calledConvert := true, wroteArtifact := true, loggedErrorWithTestName := false }

/-- `TIACoveragePlugin.pytest_runtest_teardown` (plugin lines 43-53):
guarded by `if self.cov and self.current_test`; inside the guard,
`self.cov.stop()` runs with no surrounding `try`, so if it raises the
exception propagates out of the hook; then `save_test_coverage`. -/
def pytest_runtest_teardown (st : PluginState) (env : TeardownEnv) : TeardownEffects :=
  if st.covActive && st.currentTestSet then
    if env.stopRaises then
      { calledStop := true, calledConvert := false, wroteArtifact := false
        loggedErrorWithTestName := false, raisedOut := true }
    else
      let sv := save_test_coverage env
      { calledStop := true, calledConvert := sv.calledConvert
        wroteArtifact := sv.wroteArtifact
        loggedErrorWithTestName := sv.loggedErrorWithTestName, raisedOut := false }
  else noEffects

/-- The module-level hook (plugin lines 183-186): forwards to the plugin
only when `config._tia_plugin` exists. -/
def module_pytest_runtest_teardown (registered : Bool) (st : PluginState)
    (env : TeardownEnv) : TeardownEffects :=
  if registered then pytest_runtest_teardown st env else noEffects

/-- `__init__` (plugin lines 18-19): `self.cov = None`,
`self.current_test = None` — both guard fields start unset. -/
def initState : PluginState :=
  { covActive := false, currentTestSet := false }

/-- State effect of `pytest_runtest_setup` (plugin lines 29-41): stores
the item in `self.current_test` and a fresh started `Coverage` object in
`self.cov`, so both guard fields become truthy. -/
def pytest_runtest_setup (_st : PluginState) : PluginState :=
  { covActive := true, currentTestSet := true }

/-- State effect of `pytest_runtest_teardown` (plugin lines 43-53): no
branch of the hook ever assigns `self.cov` or `self.current_test`, so
the guard fields survive the teardown unchanged. -/
def teardownState (st : PluginState) (_env : TeardownEnv) : PluginState :=
  st

/-! ### Helper lemmas -/

lemma mem_insertSorted {z x : Nat} : ∀ {l : List Nat},
    z ∈ insertSorted x l ↔ z = x ∨ z ∈ l := by
  intro l
  induction l with
  | nil => simp [insertSorted]
  | cons y ys ih =>
    by_cases h1 : x < y
    · simp [insertSorted, h1]
    · by_cases h2 : x = y
      · subst h2
        have he : insertSorted x (x :: ys) = x :: ys := by
          simp [insertSorted, h1]
        rw [he]
        simp only [List.mem_cons]
        tauto
      · simp only [insertSorted, h1, h2, if_false, List.mem_cons, ih]
        tauto

lemma pairwise_insertSorted {x : Nat} : ∀ {l : List Nat},
    l.Pairwise (· < ·) → (insertSorted x l).Pairwise (· < ·) := by
  intro l
  induction l with
  | nil => intro _; simp [insertSorted]
  | cons y ys ih =>
    intro hp
    rw [List.pairwise_cons] at hp
    obtain ⟨hy, hys⟩ := hp
    by_cases h1 : x < y
    · simp only [insertSorted, h1, if_pos]
      refine List.pairwise_cons.mpr ⟨?_, List.pairwise_cons.mpr ⟨hy, hys⟩⟩
      intro z hz
      rcases List.mem_cons.mp hz with rfl | hz'
      · exact h1
      · exact Nat.lt_trans h1 (hy z hz')
    · by_cases h2 : x = y
      · subst h2
        have he : insertSorted x (x :: ys) = x :: ys := by
          simp [insertSorted, h1]
        rw [he]
        exact List.pairwise_cons.mpr ⟨hy, hys⟩
      · have hyx : y < x := by omega
        simp only [insertSorted, h1, h2, if_false]
        refine List.pairwise_cons.mpr ⟨?_, ih hys⟩
        intro z hz
        rcases mem_insertSorted.mp hz with rfl | hz'
        · exact hyx
        · exact hy z hz'

lemma mem_foldr_insertSorted {z : Nat} : ∀ {l : List Nat},
    z ∈ l.foldr insertSorted [] ↔ z ∈ l := by
  intro l
  induction l with
  | nil => simp
  | cons c cs ih => simp [List.foldr, mem_insertSorted, ih]

lemma mem_sortedUnion {z : Nat} {a b : List Nat} :
    z ∈ sortedUnion a b ↔ z ∈ a ∨ z ∈ b := by
  rw [sortedUnion, mem_foldr_insertSorted, List.mem_append]

lemma pairwise_sortedUnion (a b : List Nat) :
    (sortedUnion a b).Pairwise (· < ·) := by
  rw [sortedUnion]
  induction (a ++ b) with
  | nil => simp
  | cons c cs ih => exact pairwise_insertSorted ih

lemma eq_of_pairwise_lt_ext {l₁ l₂ : List Nat} (h₁ : l₁.Pairwise (· < ·))
    (h₂ : l₂.Pairwise (· < ·)) (hm : ∀ x, x ∈ l₁ ↔ x ∈ l₂) : l₁ = l₂ := by
  haveI : IsAntisymm Nat (· < ·) :=
    ⟨fun a b hab hba => absurd (Nat.lt_trans hab hba) (Nat.lt_irrefl a)⟩
  refine List.eq_of_perm_of_sorted ?_ h₁ h₂
  refine (List.perm_ext_iff_of_nodup ?_ ?_).mpr hm
  · exact h₁.imp Nat.ne_of_lt
  · exact h₂.imp Nat.ne_of_lt

/-- When every executed line lies in `[1, lineCount]`, the union of the
executed lines with the computed missing lines is exactly `1..lineCount`. -/
lemma all_lines_eq_range (executed : List Nat) (fl : List (List Char))
    (h : ∀ l ∈ executed, 1 ≤ l ∧ l ≤ fl.length) :
    sortedUnion executed (missingLinesFor (some fl) executed)
      = List.range' 1 fl.length := by
  refine eq_of_pairwise_lt_ext (pairwise_sortedUnion _ _)
    (List.pairwise_lt_range' 1 fl.length) ?_
  intro x
  rw [mem_sortedUnion, missingLinesFor, List.mem_filter]
  constructor
  · rintro (hx | ⟨hx, _⟩)
    · have := h x hx
      rw [List.mem_range'_1]
      omega
    · exact hx
  · intro hx
    by_cases hxe : x ∈ executed
    · exact Or.inl hxe
    · exact Or.inr ⟨hx, by simpa using hxe⟩

lemma enumFrom_range' : ∀ (n s k : Nat),
    List.enumFrom k (List.range' s n) = (List.range n).map (fun i => (k + i, s + i)) := by
  intro n
  induction n with
  | zero => intro s k; rfl
  | succ m ih =>
    intro s k
    rw [List.range'_succ, List.enumFrom_cons, ih (s + 1) (k + 1),
      List.range_succ_eq_map, List.map_cons, List.map_map]
    simp only [Nat.add_zero]
    congr 1
    apply List.map_congr_left
    intro i _
    simp only [Function.comp_apply, Nat.succ_eq_add_one, Prod.mk.injEq]
    omega

lemma enum_range_one (N : Nat) :
    (List.range' 1 N).enum = (List.range N).map (fun i => (i, i + 1)) := by
  have h : (List.range' 1 N).enum = List.enumFrom 0 (List.range' 1 N) := rfl
  rw [h, enumFrom_range']
  apply List.map_congr_left
  intro i _
  simp [Nat.add_comm]

/-- The lines mentioned by the statement map are exactly `all_lines`. -/
lemma statementMap_lines (path : List Char) (ex mi : List Nat)
    (rr : Option (List (List Char))) :
    (create_file_coverage path ex mi rr).statementMap.map (fun e => e.2.start.line)
      = sortedUnion ex mi := by
  simp only [create_file_coverage, List.map_map]
  exact List.enum_map_snd _

/-! ### Claim theorems -/

/-- Claim C1: for every source file whose text has `N` lines and whose
executed line set lies inside `[1, N]`, the produced FileCoverageReport
has a statement map with exactly `N` entries, sequential ids `0..N-1`
assigned in ascending line order (id `i` maps to line `i + 1`), and hit
count `1` for id `i` exactly when line `i + 1` is in the executed set,
else `0`. -/
theorem converter_statement_map_spec (path : List Char) (executed : List Nat)
    (fl : List (List Char)) (N : Nat) (hN : fl.length = N)
    (hsub : ∀ l ∈ executed, 1 ≤ l ∧ l ≤ N) :
    (convertFile path executed (some fl) (some fl)).statementMap
        = (List.range N).map (fun i => (i, stmtEntry fl (i + 1))) ∧
    (convertFile path executed (some fl) (some fl)).s
        = (List.range N).map (fun i => (i, if i + 1 ∈ executed then 1 else 0)) ∧
    (convertFile path executed (some fl) (some fl)).statementMap.length = N ∧
    (convertFile path executed (some fl) (some fl)).statementMap.map Prod.fst
        = List.range N := by
  subst hN
  have hall := all_lines_eq_range executed fl hsub
  have h1 : (convertFile path executed (some fl) (some fl)).statementMap
      = (List.range fl.length).map (fun i => (i, stmtEntry fl (i + 1))) := by
    show (sortedUnion executed (missingLinesFor (some fl) executed)).enum.map
        (fun p => (p.1, stmtEntry fl p.2)) = _
    rw [hall, enum_range_one, List.map_map]
    rfl
  have h2 : (convertFile path executed (some fl) (some fl)).s
      = (List.range fl.length).map (fun i => (i, if i + 1 ∈ executed then 1 else 0)) := by
    show (sortedUnion executed (missingLinesFor (some fl) executed)).enum.map
        (fun p => (p.1, if p.2 ∈ executed then 1 else 0)) = _
    rw [hall, enum_range_one, List.map_map]
    rfl
  refine ⟨h1, h2, ?_, ?_⟩
  · rw [h1, List.length_map, List.length_range]
  · rw [h1, List.map_map]
    have hfst : (Prod.fst ∘ fun i : Nat => (i, stmtEntry fl (i + 1))) = id := rfl
    rw [hfst, List.map_id]

/-- Witness for `converter_statement_map_spec`: a three-line file with
executed lines `{1, 3}`. -/
theorem converter_statement_map_spec_witness :
    (convertFile [] [1, 3] (some [['p'], [], ['x', 'y']])
        (some [['p'], [], ['x', 'y']])).statementMap
        = (List.range 3).map (fun i => (i, stmtEntry [['p'], [], ['x', 'y']] (i + 1))) ∧
    (convertFile [] [1, 3] (some [['p'], [], ['x', 'y']])
        (some [['p'], [], ['x', 'y']])).s
        = (List.range 3).map (fun i => (i, if i + 1 ∈ [1, 3] then 1 else 0)) ∧
    (convertFile [] [1, 3] (some [['p'], [], ['x', 'y']])
        (some [['p'], [], ['x', 'y']])).statementMap.length = 3 ∧
    (convertFile [] [1, 3] (some [['p'], [], ['x', 'y']])
        (some [['p'], [], ['x', 'y']])).statementMap.map Prod.fst = List.range 3 :=
  converter_statement_map_spec [] [1, 3] [['p'], [], ['x', 'y']] 3 rfl (by decide)

/-- Claim C4: when the source file cannot be read during report
generation the converter does not abort: the missing-line set defaults
to empty, and the statement map's lines are exactly the executed lines
(every entry's line is executed, and every executed line has an
entry). -/
theorem converter_unreadable_source_spec (path : List Char) (executed : List Nat)
    (read2 : Option (List (List Char))) :
    missingLinesFor none executed = [] ∧
    ((convertFile path executed none read2).statementMap.map
        (fun e => e.2.start.line)).all (fun L => decide (L ∈ executed)) = true ∧
    executed.all (fun l =>
      decide (l ∈ (convertFile path executed none read2).statementMap.map
        (fun e => e.2.start.line))) = true := by
  have hlines : (convertFile path executed none read2).statementMap.map
      (fun e => e.2.start.line) = sortedUnion executed [] :=
    statementMap_lines path executed [] read2
  refine ⟨rfl, ?_, ?_⟩
  · rw [List.all_eq_true]
    intro L hL
    rw [hlines, mem_sortedUnion] at hL
    simp only [decide_eq_true_eq]
    rcases hL with h | h
    · exact h
    · cases h
  · rw [List.all_eq_true]
    intro l hl
    simp only [decide_eq_true_eq]
    rw [hlines, mem_sortedUnion]
    exact Or.inl hl

/-- Claim C8: every entry of a produced statement map, for its line `L`,
has start position `{line := L, column := 0}` and end position on the
same line with column equal to the rstripped length of source line `L`
as read at conversion time — or `0` when `L` exceeds the number of lines
read.  (Tracer line numbers are 1-based, hence the hypothesis.) -/
theorem statement_positions_spec (path : List Char) (executed missing : List Nat)
    (fl : List (List Char)) (_hpos : ∀ l ∈ executed ++ missing, 1 ≤ l) :
    ((create_file_coverage path executed missing (some fl)).statementMap.all
      (fun e =>
        decide (e.2.start.column = 0) &&
        decide (e.2.endPos.line = e.2.start.line) &&
        decide (e.2.endPos.column =
          if e.2.start.line ≤ fl.length
          then (rstrip ((fl.get? (e.2.start.line - 1)).getD [])).length
          else 0))) = true := by
  rw [List.all_eq_true]
  intro e he
  simp only [create_file_coverage, List.mem_map] at he
  obtain ⟨p, hp, rfl⟩ := he
  simp [stmtEntry]

/-- Witness for `statement_positions_spec`: executed `{2, 5}`, missing
`{1}`, a three-line file. -/
theorem statement_positions_spec_witness :
    ((create_file_coverage [] [2, 5] [1]
        (some [['a', 'b', ' '], [], ['c']])).statementMap.all
      (fun e =>
        decide (e.2.start.column = 0) &&
        decide (e.2.endPos.line = e.2.start.line) &&
        decide (e.2.endPos.column =
          if e.2.start.line ≤ ([['a', 'b', ' '], [], ['c']] : List (List Char)).length
          then (rstrip ((([['a', 'b', ' '], [], ['c']] : List (List Char)).get?
            (e.2.start.line - 1)).getD [])).length
          else 0))) = true :=
  statement_positions_spec [] [2, 5] [1] [['a', 'b', ' '], [], ['c']] (by decide)

/-- Claim C5: the outputs of both sanitizers contain only characters
from `[A-Za-z0-9_]`; both are pure functions of their raw argument (they
take no other state). -/
theorem sanitizer_charset_invariant (rawTest rawClass : List Char) :
    (sanitize_test_name rawTest).all
      (fun c => isAlnumAscii c || decide (c = '_')) = true ∧
    (sanitize_class_name rawClass).all
      (fun c => isAlnumAscii c || decide (c = '_')) = true := by
  constructor <;>
  · rw [List.all_eq_true]
    intro c hc
    simp only [sanitize_test_name, sanitize_class_name, replaceSpecial,
      List.mem_map] at hc
    obtain ⟨d, _, rfl⟩ := hc
    by_cases h : isAlnumAscii d <;> simp [h]

/-- Claim C6: `sanitize_test_name "test_foo_bar[param]" = "foo_bar"` —
the leading `test_` token and the trailing bracketed suffix are removed,
and remaining characters outside `[A-Za-z0-9]` become underscores. -/
theorem sanitize_test_name_example :
    sanitize_test_name "test_foo_bar[param]".toList = "foo_bar".toList := by
  decide

/-- Claim C7: `sanitize_class_name "TestWidget" = "Widget"` and
`sanitize_class_name "WidgetTest" = "Widget"`. -/
theorem sanitize_class_name_examples :
    sanitize_class_name "TestWidget".toList = "Widget".toList ∧
    sanitize_class_name "WidgetTest".toList = "Widget".toList := by
  decide

/-- Claim C9: both sanitizers are deterministic — identical inputs give
identical outputs, there being no dependence on anything but the
argument. -/
theorem sanitize_deterministic (s₁ s₂ : List Char) (h : s₁ = s₂) :
    sanitize_test_name s₁ = sanitize_test_name s₂ ∧
    sanitize_class_name s₁ = sanitize_class_name s₂ := by
  subst h
  exact ⟨rfl, rfl⟩

/-- Witness for `sanitize_deterministic`. -/
theorem sanitize_deterministic_witness :
    sanitize_test_name "test_a[1]".toList = sanitize_test_name "test_a[1]".toList ∧
    sanitize_class_name "test_a[1]".toList = sanitize_class_name "test_a[1]".toList :=
  sanitize_deterministic "test_a[1]".toList "test_a[1]".toList rfl

/-- Claim C10: `sanitize_class_name` can return the empty string — on
`"Test"` and on `"TestTest"` nothing remains — and the artifact filename
then begins with `"__"` with no class component. -/
theorem sanitize_class_name_empty :
    sanitize_class_name "Test".toList = [] ∧
    sanitize_class_name "TestTest".toList = [] ∧
    artifactFilename "Test".toList "test_foo".toList = "__foo.json".toList ∧
    (artifactFilename "Test".toList "test_foo".toList).take 2 = ['_', '_'] := by
  decide

/-- Claim C2 is refuted as stated: an exception raised by Session
Manager `stop()` itself — the first step of the teardown chain — is NOT
caught, because `self.cov.stop()` runs outside any `try`; here the hook
propagates it. -/
theorem teardown_stop_exception_escapes :
    (module_pytest_runtest_teardown true
      { covActive := true, currentTestSet := true }
      { stopRaises := true, convertRaises := false, writeRaises := false }).raisedOut
      = true := rfl

/-- Claim C2 (amended): when `stop()` itself does not raise, any
exception from the Format Converter or the Artifact Writer inside
`save_test_coverage` is caught, logged with the test's name, and
swallowed, and the hook propagates nothing; the artifact is written
exactly when neither raises. -/
theorem teardown_swallows_save_exceptions (registered : Bool) (st : PluginState)
    (env : TeardownEnv) (h : env.stopRaises = false) :
    (module_pytest_runtest_teardown registered st env).raisedOut = false ∧
    (module_pytest_runtest_teardown registered st env).loggedErrorWithTestName
      = (registered && st.covActive && st.currentTestSet
          && (env.convertRaises || env.writeRaises)) ∧
    (module_pytest_runtest_teardown registered st env).wroteArtifact
      = (registered && st.covActive && st.currentTestSet
          && !env.convertRaises && !env.writeRaises) := by
  obtain ⟨cov, cur⟩ := st
  obtain ⟨stp, cvt, wrt⟩ := env
  cases stp
  · cases registered <;> cases cov <;> cases cur <;> cases cvt <;> cases wrt <;>
      exact ⟨rfl, rfl, rfl⟩
  · simp at h

/-- Witness for `teardown_swallows_save_exceptions`: a registered,
measuring plugin whose converter raises. -/
theorem teardown_swallows_save_exceptions_witness :
    (module_pytest_runtest_teardown true ⟨true, true⟩ ⟨false, true, false⟩).raisedOut
      = false ∧
    (module_pytest_runtest_teardown true ⟨true, true⟩
        ⟨false, true, false⟩).loggedErrorWithTestName
      = (true && true && true && (true || false)) ∧
    (module_pytest_runtest_teardown true ⟨true, true⟩
        ⟨false, true, false⟩).wroteArtifact
      = (true && true && true && !true && !false) :=
  teardown_swallows_save_exceptions true ⟨true, true⟩ ⟨false, true, false⟩ rfl

/-- Claim C3 is refuted as stated: "teardown without a preceding setup
for that test" does not make the adapter a no-op in general, because the
teardown hook never resets `self.cov` / `self.current_test`.  Concretely:
starting from the constructed state, one test's setup runs, its teardown
runs (leaving both fields set), and then a second test's setup is
skipped; when the second teardown fires, the line-45 guard passes on the
stale state and the adapter stops the session, converts coverage, and
writes an artifact. -/
theorem teardown_acts_on_stale_state :
    teardownState (pytest_runtest_setup initState) ⟨false, false, false⟩
      = { covActive := true, currentTestSet := true } ∧
    (module_pytest_runtest_teardown true
        (teardownState (pytest_runtest_setup initState) ⟨false, false, false⟩)
        ⟨false, false, false⟩).calledStop = true ∧
    (module_pytest_runtest_teardown true
        (teardownState (pytest_runtest_setup initState) ⟨false, false, false⟩)
        ⟨false, false, false⟩).calledConvert = true ∧
    (module_pytest_runtest_teardown true
        (teardownState (pytest_runtest_setup initState) ⟨false, false, false⟩)
        ⟨false, false, false⟩).wroteArtifact = true := by
  decide

/-- Claim C3 (amended): the teardown hook is a no-op exactly in the
guarded cases — the plugin is not registered, or `self.cov` /
`self.current_test` are still unset (as they are before any test's setup
has ever run); then there is no stop, no conversion, no artifact write.
Once some setup has run, later teardowns are not guarded by "this test's
setup ran", as `teardown_acts_on_stale_state` shows. -/
theorem teardown_noop_without_setup (registered : Bool) (st : PluginState)
    (env : TeardownEnv)
    (h : registered = false ∨ st.covActive = false ∨ st.currentTestSet = false) :
    module_pytest_runtest_teardown registered st env = noEffects := by
  obtain ⟨cov, cur⟩ := st
  obtain ⟨stp, cvt, wrt⟩ := env
  cases registered <;> cases cov <;> cases cur <;> cases stp <;> cases cvt <;>
    cases wrt <;> (revert h; decide)

/-- Witness for `teardown_noop_without_setup`: hook fires while the
plugin is not registered. -/
theorem teardown_noop_without_setup_witness :
    module_pytest_runtest_teardown false ⟨true, true⟩ ⟨false, false, false⟩
      = noEffects :=
  teardown_noop_without_setup false ⟨true, true⟩ ⟨false, false, false⟩ (Or.inl rfl)

end TIA
